import Mathlib

/-!
Verification of the allocator core of `include/onnxruntime/core/framework/allocator.h`.

Machine integers are modelled as `Nat` with explicit reduction modulo `2 ^ 64`
(the platform's `size_t`).  C character pointers are modelled as the list of
bytes up to (and excluding) the terminating NUL; a possibly-null pointer is an
`Option` of such a list.  A C++ execution that would run into undefined
behaviour (division by zero inside the overflow check) is modelled as `none`.
-/

namespace OnnxAlloc

/-- Modulus of the platform word: `size_t` has 64 value bits. -/
def sizeW : Nat := 2 ^ 64

/-- The constant `max_allowed` of `CalcMemSizeForArrayWithAlignment`:
`(size_t(1) << (std::numeric_limits<size_t>::digits >> 1)) - alignment`
computed in `size_t` arithmetic, i.e. `2 ^ 32 - alignment (mod 2 ^ 64)`. -/
def max_allowed (alignment : Nat) : Nat := (2 ^ 32 + sizeW - alignment) % sizeW

/-- The constant `max_size`: `std::numeric_limits<size_t>::max() - alignment`. -/
def max_size (alignment : Nat) : Nat := sizeW - 1 - alignment

/-- The constant `alignment_mask`: `alignment - 1` in `size_t` arithmetic
(wrapping to `2 ^ 64 - 1` when `alignment = 0`). -/
def alignment_mask (alignment : Nat) : Nat := (alignment + sizeW - 1) % sizeW

/-- `IAllocator::CalcMemSizeForArrayWithAlignment<alignment>(nmemb, size, out)`.
The out parameter is passed in as `out0` (its value before the call) and the
result is `(returned bool, value of *out after the call)`; the C++ code leaves
`*out` untouched on the failure paths.  `none` models the undefined behaviour
of evaluating `max_size / nmemb` with `nmemb = 0`, which the first guard
reaches exactly when `max_allowed = 0` (i.e. `alignment = 2 ^ 32`). -/
def CalcMemSizeForArrayWithAlignment (alignment nmemb size out0 : Nat) :
    Option (Bool × Nat) :=
  if max_allowed alignment ≤ nmemb ∧ nmemb = 0 then none
  else if max_allowed alignment ≤ nmemb ∧ max_size alignment / nmemb < size then
    some (false, out0)
  else if max_allowed alignment ≤ size ∧ 0 < nmemb ∧ max_size alignment / nmemb < size then
    some (false, out0)
  else if alignment = 0 then some (true, size * nmemb % sizeW)
  else some (true,
    (size * nmemb % sizeW + alignment_mask alignment) % sizeW &&&
      ((sizeW - 1) ^^^ alignment_mask alignment))

/-- `IAllocator::CalcMemSizeForArray(nmemb, size, out)`: the alignment-0
instantiation. -/
def CalcMemSizeForArray (nmemb size out0 : Nat) : Option (Bool × Nat) :=
  CalcMemSizeForArrayWithAlignment 0 nmemb size out0

/-- Specification-side rounding: `p` rounded up to the next multiple of
`alignment`, with no rounding when `alignment = 0`. -/
def roundUpAlign (p alignment : Nat) : Nat :=
  if alignment = 0 then p else alignment * ((p + alignment - 1) / alignment)

/-- The documented precondition on the template parameter: the alignment is a
power of two, zero being admitted as "no rounding". -/
def IsAlignment (alignment : Nat) : Prop := alignment = 0 ∨ ∃ k, alignment = 2 ^ k

/-- `IAllocator::AllocArrayWithAlignment<alignment>(nmemb, size)` over an
abstract `Alloc` (a pointer-valued function of the byte count, `0` standing
for `nullptr`).  `len0` is the indeterminate initial value of the local
`size_t len`.  The result pairs the returned pointer with the list of
arguments passed to `Alloc` (so "never invoked" is an empty list). -/
def AllocArrayWithAlignment (alignment : Nat) (alloc : Nat → Nat)
    (nmemb size len0 : Nat) : Option (Nat × List Nat) :=
  match CalcMemSizeForArrayWithAlignment alignment nmemb size len0 with
  | none => none
  | some (false, _) => some (0, [])
  | some (true, len) => some (alloc len, [len])

/-- `IAllocator::AllocArray(nmemb, size)`: the alignment-0 instantiation. -/
def AllocArray (alloc : Nat → Nat) (nmemb size len0 : Nat) : Option (Nat × List Nat) :=
  AllocArrayWithAlignment 0 alloc nmemb size len0

/-- `IAllocator::MakeUniquePtr<T>(allocator, count_or_bytes)`.
`hasAllocator = false` models the empty `shared_ptr`; `isVoid` tells whether
`T` is `void`; `sizeofT` is `sizeof(T)` for non-void `T`.  The result pairs
the pointer stored in the returned handle (`0` = empty handle) with the list
of arguments passed to `Alloc`.  Note the local `alloc_size` is initialised
to `count_or_bytes` before `CalcMemSizeForArray` may overwrite it. -/
def MakeUniquePtr (hasAllocator : Bool) (alloc : Nat → Nat) (isVoid : Bool)
    (sizeofT count_or_bytes : Nat) : Option (Nat × List Nat) :=
  if hasAllocator = false then some (0, [])
  else if isVoid then some (alloc count_or_bytes, [count_or_bytes])
  else
    match CalcMemSizeForArray count_or_bytes sizeofT count_or_bytes with
    | none => none
    | some (false, _) => some (0, [])
    | some (true, alloc_size) => some (alloc alloc_size, [alloc_size])

/-- `OrtDevice`: device type, memory type and device index.  The narrow C++
fields (`int8_t`, `int8_t`, `int16_t`) are modelled as integers. -/
structure OrtDevice where
  device_type : Int
  memory_type : Int
  device_id : Int
deriving DecidableEq

/-- `operator==(const OrtDevice&, const OrtDevice&)`:
`left.Id() == other.Id() && left.MemType() == other.MemType() && left.Type() == other.Type()`. -/
def ortDeviceEq (a b : OrtDevice) : Bool :=
  a.device_id == b.device_id && a.memory_type == b.memory_type &&
    a.device_type == b.device_type

/-- `operator!=(const OrtDevice&, const OrtDevice&)`: `!(left == other)`. -/
def ortDeviceNe (a b : OrtDevice) : Bool := !ortDeviceEq a b

/-- `OrtDevice::ToString()`: the exact stream concatenation of the source. -/
def OrtDevice.ToString (d : OrtDevice) : String :=
  "Device: [" ++ " type:" ++ toString d.device_type
    ++ " memory_type:" ++ toString d.memory_type
    ++ " device_id:" ++ toString d.device_id
    ++ "]"

/-- `OrtMemoryInfo` with a valid (non-null) name: the name is the byte string
the `const char*` points at. -/
structure OrtMemoryInfo where
  name : List Nat
  id : Int
  mem_type : Int
  type : Int
  device : OrtDevice
deriving DecidableEq

/-- `strcmp(a, b) < 0` on NUL-terminated byte strings. -/
def strcmpLt : List Nat → List Nat → Bool
  | [], [] => false
  | [], _ :: _ => true
  | _ :: _, [] => false
  | a :: as, b :: bs => if a < b then true else if b < a then false else strcmpLt as bs

/-- `strcmp(a, b) == 0` on NUL-terminated byte strings. -/
def strcmpEq : List Nat → List Nat → Bool
  | [], [] => true
  | [], _ :: _ => false
  | _ :: _, [] => false
  | a :: as, b :: bs => if a = b then strcmpEq as bs else false

/-- `OrtMemoryInfo::operator<`: compare `type`, then `mem_type`, then `id`,
then `strcmp(name, other.name) < 0`.  The `device` field is not consulted. -/
def OrtMemoryInfo.lt (a b : OrtMemoryInfo) : Bool :=
  if a.type ≠ b.type then decide (a.type < b.type)
  else if a.mem_type ≠ b.mem_type then decide (a.mem_type < b.mem_type)
  else if a.id ≠ b.id then decide (a.id < b.id)
  else strcmpLt a.name b.name

/-- `operator==(const OrtMemoryInfo&, const OrtMemoryInfo&)`: `mem_type`,
`type`, `id` and `strcmp(name, name) == 0`.  The `device` field is not
consulted. -/
def OrtMemoryInfo.beq (a b : OrtMemoryInfo) : Bool :=
  a.mem_type == b.mem_type && a.type == b.type && a.id == b.id &&
    strcmpEq a.name b.name

/-- Rendering of a C byte string through `operator<<(std::ostream&, const char*)`. -/
def nameString (name : List Nat) : String := String.mk (name.map Char.ofNat)

/-- `OrtMemoryInfo::ToString()`: the exact stream concatenation of the source. -/
def OrtMemoryInfo.ToString (info : OrtMemoryInfo) : String :=
  "OrtMemoryInfo: [" ++ " name:" ++ nameString info.name
    ++ " id:" ++ toString info.id
    ++ " mem_type:" ++ toString info.mem_type
    ++ " type:" ++ toString info.type
    ++ "]"

/-- `OrtMemoryInfo` at the pointer level: the name may be a null pointer
(`none`). -/
structure OrtMemoryInfoRaw where
  name : Option (List Nat)
  id : Int
  mem_type : Int
  type : Int
  device : OrtDevice
deriving DecidableEq

/-- The `OrtMemoryInfo` constructor: the member-initialiser list stores the
five arguments.  The `__attribute__((nonnull))` on the declaration adds no
runtime check, so the body runs identically for a null `name_`. -/
def OrtMemoryInfo.construct (name_ : Option (List Nat)) (type_ : Int)
    (device_ : OrtDevice) (id_ : Int) (mem_type_ : Int) : OrtMemoryInfoRaw :=
  { name := name_, id := id_, mem_type := mem_type_, type := type_, device := device_ }

/-- Rendering that the spec describes for `OrtDevice`, written as one
format string (amended: no space before the closing bracket). -/
def specDeviceRendering (d : OrtDevice) : String :=
  "Device: [ type:" ++ toString d.device_type ++ " memory_type:"
    ++ toString d.memory_type ++ " device_id:" ++ toString d.device_id ++ "]"

/-- Rendering that the spec describes for `OrtMemoryInfo`, written as one
format string (amended: no space before the closing bracket). -/
def specMemoryInfoRendering (info : OrtMemoryInfo) : String :=
  "OrtMemoryInfo: [ name:" ++ nameString info.name ++ " id:" ++ toString info.id
    ++ " mem_type:" ++ toString info.mem_type ++ " type:" ++ toString info.type ++ "]"

/-- Reference-counting state of one allocator shared through
`std::shared_ptr<IAllocator>` (documented C++ semantics of the standard smart
pointers, which `MakeUniquePtr`'s deleter relies on): the strong count, whether
the `IAllocator` object is still alive, and the log of arguments of the `Free`
calls completed so far. -/
structure RCState where
  refCount : Nat
  alive : Bool
  freeCalls : List Nat
deriving DecidableEq

/-- `allocator->Free(p)`: meaningful only while the allocator is alive; a call
on a destroyed allocator would be a use-after-free, modelled as `none`. -/
def invokeFree (s : RCState) (p : Nat) : Option RCState :=
  if s.alive then some { s with freeCalls := s.freeCalls ++ [p] } else none

/-- Dropping one shared reference: the last drop destroys the allocator. -/
def dropRef (s : RCState) : RCState :=
  if s.refCount ≤ 1 then { refCount := 0, alive := false, freeCalls := s.freeCalls }
  else { s with refCount := s.refCount - 1 }

/-- Dropping `n` shared references one after the other. -/
def dropRefs : Nat → RCState → RCState
  | 0, s => s
  | n + 1, s => dropRefs n (dropRef s)

/-- The deleter `MakeUniquePtr` installs: `[=](T* ptr) { allocator->Free(ptr); }`.
Running it calls `Free` through the captured shared reference; when the deleter
itself is then destroyed, that captured reference is dropped. -/
def deleterRun (s : RCState) (p : Nat) : Option RCState :=
  (invokeFree s p).map dropRef

/-- Destruction of the `IAllocatorUniquePtr` handle: per `std::unique_ptr`, the
deleter runs exactly once, and only if the stored pointer is non-null. -/
def handleRelease (s : RCState) (ptr : Nat) : Option RCState :=
  if ptr = 0 then some s else deleterRun s ptr

theorem max_allowed_eq {alignment : Nat} (ha : alignment < 2 ^ 32) :
    max_allowed alignment = 2 ^ 32 - alignment := by
  simp only [max_allowed, sizeW]
  omega

theorem alignment_mask_eq {alignment : Nat} (h0 : 0 < alignment)
    (hw : alignment < sizeW) : alignment_mask alignment = alignment - 1 := by
  simp only [alignment_mask, sizeW] at *
  omega

/-- A power of two below `2 ^ 32` is at most `2 ^ 31`; so is `0`. -/
theorem isAlignment_le {alignment : Nat} (hpow : IsAlignment alignment)
    (ha : alignment < 2 ^ 32) : alignment ≤ 2 ^ 31 := by
  rcases hpow with h0 | ⟨k, rfl⟩
  · omega
  · have hk : k < 32 := by
      by_contra hk
      have h1 : (2 : Nat) ^ 32 ≤ 2 ^ k :=
        Nat.pow_le_pow_right (by norm_num) (Nat.not_lt.mp hk)
      omega
    exact Nat.pow_le_pow_right (by norm_num) (by omega)

/-- Clearing the low `k` bits with the complemented mask rounds down to a
multiple of `2 ^ k`. -/
theorem land_high_mask (k x : Nat) (hk : k ≤ 64) (hx : x < 2 ^ 64) :
    x &&& ((2 ^ 64 - 1) ^^^ (2 ^ k - 1)) = 2 ^ k * (x / 2 ^ k) := by
  have hrw : 2 ^ k * (x / 2 ^ k) = (x >>> k) <<< k := by
    rw [Nat.shiftRight_eq_div_pow, Nat.shiftLeft_eq, Nat.mul_comm]
  rw [hrw]
  apply Nat.eq_of_testBit_eq
  intro i
  simp only [Nat.testBit_and, Nat.testBit_xor, Nat.testBit_two_pow_sub_one,
    Nat.testBit_shiftLeft, Nat.testBit_shiftRight]
  rcases Nat.lt_or_ge i 64 with h64 | h64
  · rcases Nat.lt_or_ge i k with hik | hik
    · simp [hik, h64, Nat.not_le.mpr hik]
    · have hi : k + (i - k) = i := by omega
      simp [h64, Nat.not_lt.mpr hik, hik, hi]
  · have hxb : x.testBit i = false :=
      Nat.testBit_lt_two_pow (lt_of_lt_of_le hx (Nat.pow_le_pow_right (by norm_num) h64))
    have hik : k ≤ i := Nat.le_trans hk h64
    have hi : k + (i - k) = i := by omega
    simp [hxb, hi, hik, Nat.not_lt.mpr h64]

/-- Full functional characterization of `CalcMemSizeForArrayWithAlignment` for
power-of-two alignments below `2 ^ 32` (zero included): the call succeeds iff
`nmemb * size ≤ max_size`, writes the rounded-up product on success, and
leaves the out parameter untouched on failure. -/
theorem calc_characterization (alignment nmemb size out0 : Nat)
    (hpow : IsAlignment alignment) (ha : alignment < 2 ^ 32)
    (hn : nmemb < sizeW) (hs : size < sizeW) :
    CalcMemSizeForArrayWithAlignment alignment nmemb size out0 =
      if nmemb * size ≤ max_size alignment then
        some (true, roundUpAlign (nmemb * size) alignment)
      else some (false, out0) := by
  have ha31 : alignment ≤ 2 ^ 31 := isAlignment_le hpow ha
  have hM : max_allowed alignment = 2 ^ 32 - alignment := max_allowed_eq ha
  have hMpos : 0 < max_allowed alignment := by omega
  have hms : max_size alignment = 2 ^ 64 - 1 - alignment := by
    simp [max_size, sizeW]
  rcases le_or_lt (nmemb * size) (max_size alignment) with hle | hgt
  · rw [if_pos hle]
    have hg1 : ¬(max_allowed alignment ≤ nmemb ∧ nmemb = 0) := by
      rintro ⟨h1, rfl⟩; omega
    have hdivf : ¬(0 < nmemb ∧ max_size alignment / nmemb < size) := by
      rintro ⟨hnp, hdiv⟩
      rw [Nat.div_lt_iff_lt_mul hnp] at hdiv
      rw [Nat.mul_comm] at hle
      omega
    have hg2 : ¬(max_allowed alignment ≤ nmemb ∧ max_size alignment / nmemb < size) := by
      rintro ⟨h1, h2⟩
      exact hdivf ⟨by omega, h2⟩
    have hg3 : ¬(max_allowed alignment ≤ size ∧ 0 < nmemb ∧
        max_size alignment / nmemb < size) := by
      rintro ⟨_, h2, h3⟩
      exact hdivf ⟨h2, h3⟩
    rw [CalcMemSizeForArrayWithAlignment, if_neg hg1, if_neg hg2, if_neg hg3]
    rcases Nat.eq_zero_or_pos alignment with h0 | h0
    · subst h0
      rw [if_pos rfl]
      have hlt : size * nmemb < sizeW := by
        rw [Nat.mul_comm]; simp only [sizeW] at *; omega
      rw [Nat.mod_eq_of_lt hlt]
      simp [roundUpAlign, Nat.mul_comm]
    · have hne : alignment ≠ 0 := by omega
      rw [if_neg hne]
      rcases hpow with h | ⟨k, hk⟩
      · omega
      · have hk64 : k ≤ 64 := by
          by_contra hc
          have : 2 ^ 64 ≤ 2 ^ k := Nat.pow_le_pow_right (by norm_num) (by omega)
          omega
        have hmask : alignment_mask alignment = alignment - 1 :=
          alignment_mask_eq h0 (by simp only [sizeW]; omega)
        have hp1 : size * nmemb % sizeW = size * nmemb := by
          apply Nat.mod_eq_of_lt
          rw [Nat.mul_comm]
          simp only [sizeW] at *
          omega
        have hp2 : (size * nmemb + (alignment - 1)) % sizeW =
            size * nmemb + (alignment - 1) := by
          apply Nat.mod_eq_of_lt
          rw [Nat.mul_comm]
          simp only [sizeW] at *
          omega
        rw [hmask, hp1, hp2]
        have hw1 : sizeW - 1 = 2 ^ 64 - 1 := by simp [sizeW]
        rw [hw1, hk]
        have hxlt : size * nmemb + (2 ^ k - 1) < 2 ^ 64 := by
          rw [Nat.mul_comm]
          simp only [sizeW] at *
          omega
        have hpos : 0 < 2 ^ k := pow_pos (by norm_num) k
        rw [land_high_mask k _ hk64 hxlt, roundUpAlign, if_neg hpos.ne']
        have harg : size * nmemb + (2 ^ k - 1) = nmemb * size + 2 ^ k - 1 := by
          rw [Nat.mul_comm]; omega
        rw [harg]
  · rw [if_neg (by omega)]
    have hnp : 0 < nmemb := by
      rcases Nat.eq_zero_or_pos nmemb with h | h
      · subst h; simp at hgt
      · exact h
    have hsp : 0 < size := by
      rcases Nat.eq_zero_or_pos size with h | h
      · subst h; simp at hgt
      · exact h
    have hdiv : max_size alignment / nmemb < size := by
      rw [Nat.div_lt_iff_lt_mul hnp, Nat.mul_comm]
      omega
    have hg1 : ¬(max_allowed alignment ≤ nmemb ∧ nmemb = 0) := by
      rintro ⟨_, rfl⟩; omega
    rcases le_or_lt (max_allowed alignment) nmemb with hcn | hcn
    · rw [CalcMemSizeForArrayWithAlignment, if_neg hg1, if_pos ⟨hcn, hdiv⟩]
    · have hcs : max_allowed alignment ≤ size := by
        by_contra hc
        have h1 : nmemb * size ≤ (2 ^ 32 - 1) * (2 ^ 32 - 1) :=
          Nat.mul_le_mul (by omega) (by omega)
        have h2 : (2 ^ 32 - 1) * (2 ^ 32 - 1) = 2 ^ 64 - 2 ^ 33 + 1 := by norm_num
        omega
      have hg2 : ¬(max_allowed alignment ≤ nmemb ∧
          max_size alignment / nmemb < size) := by
        rintro ⟨h1, _⟩; omega
      rw [CalcMemSizeForArrayWithAlignment, if_neg hg1, if_neg hg2,
        if_pos ⟨hcs, hnp, hdiv⟩]

/-- Claim C1 (amended): for every power-of-two alignment below `2 ^ 32` (zero
included) and all `nmemb`, `size` in the `size_t` range,
`CalcMemSizeForArrayWithAlignment` returns true iff `nmemb * size` is at most
`SIZE_MAX - alignment`; and whenever it returns true, the value written to the
out parameter is exactly `nmemb * size` rounded up to the next multiple of the
alignment (no rounding when the alignment is 0). -/
theorem calcMemSize_success_iff_and_value (alignment nmemb size out0 : Nat)
    (hpow : IsAlignment alignment) (ha : alignment < 2 ^ 32)
    (hn : nmemb < sizeW) (hs : size < sizeW) :
    ∃ b v, CalcMemSizeForArrayWithAlignment alignment nmemb size out0 = some (b, v) ∧
      (b = true ↔ nmemb * size ≤ sizeW - 1 - alignment) ∧
      (b = true → v = roundUpAlign (nmemb * size) alignment) := by
  rw [calc_characterization alignment nmemb size out0 hpow ha hn hs]
  rcases le_or_lt (nmemb * size) (max_size alignment) with hle | hgt
  · rw [if_pos hle]
    refine ⟨true, roundUpAlign (nmemb * size) alignment, rfl, ?_, fun _ => rfl⟩
    simp only [max_size] at hle
    simp [hle]
  · rw [if_neg (by omega)]
    refine ⟨false, out0, rfl, ?_, by simp⟩
    simp only [max_size] at hgt
    constructor
    · intro h; exact absurd h (by simp)
    · intro h; omega

/-- Witness for C1: alignment 16, one element of ten bytes succeeds with the
rounded size 16. -/
theorem calcMemSize_success_iff_and_value_witness :
    ∃ b v, CalcMemSizeForArrayWithAlignment 16 1 10 0 = some (b, v) ∧
      (b = true ↔ 1 * 10 ≤ sizeW - 1 - 16) ∧
      (b = true → v = roundUpAlign (1 * 10) 16) :=
  calcMemSize_success_iff_and_value 16 1 10 0 (Or.inr ⟨4, rfl⟩) (by norm_num)
    (by norm_num [sizeW]) (by norm_num [sizeW])

/-- Counterexample to C1 as stated: at alignment 2, `nmemb = 2 ^ 63 - 1`,
`size = 2`, the rounded-up product `2 ^ 64 - 2` is representable in `size_t`,
yet the call reports overflow (and so "returns true iff the rounded-up product
is representable" is false). -/
theorem calcMemSize_roundup_representable_but_fails :
    CalcMemSizeForArrayWithAlignment 2 (2 ^ 63 - 1) 2 0 = some (false, 0) ∧
    roundUpAlign ((2 ^ 63 - 1) * 2) 2 = 2 ^ 64 - 2 ∧
    roundUpAlign ((2 ^ 63 - 1) * 2) 2 < 2 ^ 64 := by
  refine ⟨by decide, by norm_num [roundUpAlign], by norm_num [roundUpAlign]⟩

/-- Claim C2: for every alignment, element count and element size, whenever
`CalcMemSizeForArrayWithAlignment` returns false the out parameter holds its
prior value: no result is written on the failure path. -/
theorem calcMemSize_failure_leaves_out_unchanged (alignment nmemb size out0 v : Nat)
    (h : CalcMemSizeForArrayWithAlignment alignment nmemb size out0 = some (false, v)) :
    v = out0 := by
  unfold CalcMemSizeForArrayWithAlignment at h
  split_ifs at h with h1 h2 h3 h4 <;> simp_all

/-- Witness for C2: the overflowing call `sizeFor(0, SIZE_MAX, 2)` fails and
leaves the out value 7 in place. -/
theorem calcMemSize_failure_leaves_out_unchanged_witness :
    CalcMemSizeForArrayWithAlignment 0 (2 ^ 64 - 1) 2 7 = some (false, 7) ∧ (7 : Nat) = 7 :=
  ⟨by decide, calcMemSize_failure_leaves_out_unchanged 0 (2 ^ 64 - 1) 2 7 7 (by decide)⟩

/-- Counterexample to C10 as stated: at alignment `2 ^ 32` (a power of two),
element count 0 and element size 1 the guard evaluates `max_size / nmemb` with
`nmemb = 0` — a division by zero, undefined behaviour in C++ (modelled `none`)
— instead of returning true and writing 0. -/
theorem calcMemSize_zero_count_ub_at_two_pow_32 :
    CalcMemSizeForArrayWithAlignment (2 ^ 32) 0 1 0 = none := by decide

/-- Claim C10 (amended): for every element size in the `size_t` range
(`SIZE_MAX` included) and every power-of-two alignment other than `2 ^ 32`
(zero included), element count 0 returns true and writes 0: a zero-count array
never reaches the overflow failure path. -/
theorem calcMemSize_zero_count (alignment size out0 : Nat)
    (hpow : IsAlignment alignment) (hw : alignment < sizeW)
    (hne : alignment ≠ 2 ^ 32) (hs : size < sizeW) :
    CalcMemSizeForArrayWithAlignment alignment 0 size out0 = some (true, 0) := by
  have hMpos : 0 < max_allowed alignment := by
    simp only [max_allowed, sizeW] at *
    omega
  rw [CalcMemSizeForArrayWithAlignment]
  rw [if_neg (by rintro ⟨h, _⟩; omega), if_neg (by rintro ⟨h, _⟩; omega),
    if_neg (by rintro ⟨_, h, _⟩; omega)]
  rcases Nat.eq_zero_or_pos alignment with h0 | h0
  · subst h0
    simp
  · have hne0 : alignment ≠ 0 := by omega
    rw [if_neg hne0]
    rcases hpow with h | ⟨k, hk⟩
    · omega
    · have hkpos : 0 < 2 ^ k := pow_pos (by norm_num) k
      have hk64 : k ≤ 64 := by
        by_contra hc
        have h1 : (2 : Nat) ^ 64 ≤ 2 ^ k := Nat.pow_le_pow_right (by norm_num) (by omega)
        simp only [sizeW] at hw
        omega
      have hmask : alignment_mask alignment = alignment - 1 := alignment_mask_eq h0 hw
      have hx : alignment - 1 < 2 ^ 64 := by simp only [sizeW] at hw; omega
      have hmod : (size * 0 % sizeW + (alignment - 1)) % sizeW = alignment - 1 := by
        simp only [Nat.mul_zero, Nat.zero_mod, Nat.zero_add]
        exact Nat.mod_eq_of_lt (by simp only [sizeW]; omega)
      rw [hmask, hmod]
      have hw1 : sizeW - 1 = 2 ^ 64 - 1 := by simp [sizeW]
      rw [hw1, hk]
      rw [land_high_mask k _ hk64 (by rw [hk] at hx; exact hx)]
      have hdiv : (2 ^ k - 1) / 2 ^ k = 0 := Nat.div_eq_of_lt (by omega)
      rw [hdiv, Nat.mul_zero]

/-- Witness for C10: alignment 8 with element size `SIZE_MAX` and count 0
succeeds with result 0. -/
theorem calcMemSize_zero_count_witness :
    CalcMemSizeForArrayWithAlignment 8 0 (2 ^ 64 - 1) 3 = some (true, 0) :=
  calcMemSize_zero_count 8 (2 ^ 64 - 1) 3 (Or.inr ⟨3, rfl⟩) (by norm_num [sizeW])
    (by norm_num) (by norm_num [sizeW])

/-- Claim C3: `AllocArray` and `AllocArrayWithAlignment` first run the
overflow-safe size computation; when it fails they return null without ever
invoking `Alloc` (empty call log); when it succeeds they forward exactly the
computed byte count to `Alloc` and return its result unchanged. -/
theorem allocArray_overflow_guard (alignment : Nat) (alloc : Nat → Nat)
    (nmemb size len0 : Nat) :
    (∀ v, CalcMemSizeForArray nmemb size len0 = some (false, v) →
      AllocArray alloc nmemb size len0 = some (0, [])) ∧
    (∀ len, CalcMemSizeForArray nmemb size len0 = some (true, len) →
      AllocArray alloc nmemb size len0 = some (alloc len, [len])) ∧
    (∀ v, CalcMemSizeForArrayWithAlignment alignment nmemb size len0 = some (false, v) →
      AllocArrayWithAlignment alignment alloc nmemb size len0 = some (0, [])) ∧
    (∀ len, CalcMemSizeForArrayWithAlignment alignment nmemb size len0 = some (true, len) →
      AllocArrayWithAlignment alignment alloc nmemb size len0 = some (alloc len, [len])) := by
  refine ⟨fun v h => ?_, fun len h => ?_, fun v h => ?_, fun len h => ?_⟩
  · rw [CalcMemSizeForArray] at h
    unfold AllocArray AllocArrayWithAlignment
    rw [h]
  · rw [CalcMemSizeForArray] at h
    unfold AllocArray AllocArrayWithAlignment
    rw [h]
  · unfold AllocArrayWithAlignment
    rw [h]
  · unfold AllocArrayWithAlignment
    rw [h]

/-- Witness for C3: a 10-by-20 array allocation computes 200 bytes and returns
the allocator's answer unchanged. -/
theorem allocArray_overflow_guard_witness :
    AllocArray (fun n => n + 1) 10 20 0 = some (201, [200]) :=
  (allocArray_overflow_guard 0 (fun n => n + 1) 10 20 0).2.1 200 (by decide)

/-- Claim C4: `MakeUniquePtr` returns the empty handle when the allocator
handle is empty; for `T = void` it allocates exactly `count_or_bytes` bytes;
for non-void `T` it allocates `count_or_bytes * sizeof(T)` bytes computed
through the overflow-safe sizing, and on overflow returns the empty handle
without ever calling `Alloc`. -/
theorem makeUniquePtr_behaviour (alloc : Nat → Nat) (isVoid : Bool)
    (sizeofT count_or_bytes : Nat) (hsz : sizeofT < sizeW) (hc : count_or_bytes < sizeW) :
    MakeUniquePtr false alloc isVoid sizeofT count_or_bytes = some (0, []) ∧
    MakeUniquePtr true alloc true sizeofT count_or_bytes =
      some (alloc count_or_bytes, [count_or_bytes]) ∧
    (count_or_bytes * sizeofT ≤ sizeW - 1 →
      MakeUniquePtr true alloc false sizeofT count_or_bytes =
        some (alloc (count_or_bytes * sizeofT), [count_or_bytes * sizeofT])) ∧
    (sizeW - 1 < count_or_bytes * sizeofT →
      MakeUniquePtr true alloc false sizeofT count_or_bytes = some (0, [])) := by
  have hchar : CalcMemSizeForArray count_or_bytes sizeofT count_or_bytes =
      if count_or_bytes * sizeofT ≤ sizeW - 1 then
        some (true, count_or_bytes * sizeofT)
      else some (false, count_or_bytes) := by
    rw [CalcMemSizeForArray, calc_characterization 0 count_or_bytes sizeofT
      count_or_bytes (Or.inl rfl) (by norm_num) hc hsz]
    simp [max_size, roundUpAlign]
  refine ⟨by simp [MakeUniquePtr], by simp [MakeUniquePtr], fun hle => ?_, fun hgt => ?_⟩
  · unfold MakeUniquePtr
    rw [if_neg (by simp), if_neg (by simp), hchar, if_pos hle]
  · unfold MakeUniquePtr
    rw [if_neg (by simp), if_neg (by simp), hchar, if_neg (by omega)]

/-- Witness for C4: four elements of four bytes each allocate sixteen bytes. -/
theorem makeUniquePtr_behaviour_witness :
    MakeUniquePtr true (fun n => n + 100) false 4 4 = some (116, [16]) :=
  (makeUniquePtr_behaviour (fun n => n + 100) false 4 4 (by norm_num [sizeW])
    (by norm_num [sizeW])).2.2.1 (by norm_num [sizeW])

theorem strcmpEq_iff (as bs : List Nat) : strcmpEq as bs = true ↔ as = bs := by
  induction as generalizing bs with
  | nil => cases bs <;> simp [strcmpEq]
  | cons a as ih =>
    cases bs with
    | nil => simp [strcmpEq]
    | cons b bs =>
      by_cases hab : a = b
      · subst hab
        simp [strcmpEq, ih]
      · simp [strcmpEq, hab]

theorem strcmpLt_irrefl (as : List Nat) : strcmpLt as as = false := by
  induction as with
  | nil => rfl
  | cons a as ih => simp [strcmpLt, ih]

theorem strcmpLt_asymm (as bs : List Nat) (h : strcmpLt as bs = true) :
    strcmpLt bs as = false := by
  induction as generalizing bs with
  | nil =>
    cases bs with
    | nil => simp [strcmpLt] at h
    | cons b bs => rfl
  | cons a as ih =>
    cases bs with
    | nil => simp [strcmpLt] at h
    | cons b bs =>
      rcases Nat.lt_trichotomy a b with hab | hab | hab
      · simp [strcmpLt, hab, Nat.lt_asymm hab]
      · subst hab
        simp [strcmpLt] at h ⊢
        exact ih bs h
      · simp [strcmpLt, hab, Nat.lt_asymm hab] at h

theorem strcmpLt_trans (as bs cs : List Nat) (h1 : strcmpLt as bs = true)
    (h2 : strcmpLt bs cs = true) : strcmpLt as cs = true := by
  induction as generalizing bs cs with
  | nil =>
    cases cs with
    | nil =>
      cases bs with
      | nil => simp [strcmpLt] at h1
      | cons b bs => simp [strcmpLt] at h2
    | cons c cs => rfl
  | cons a as ih =>
    cases bs with
    | nil => simp [strcmpLt] at h1
    | cons b bs =>
      cases cs with
      | nil => simp [strcmpLt] at h2
      | cons c cs =>
        rcases Nat.lt_trichotomy a b with hab | hab | hab
        · rcases Nat.lt_trichotomy b c with hbc | hbc | hbc
          · simp [strcmpLt, Nat.lt_trans hab hbc]
          · subst hbc
            simp [strcmpLt, hab]
          · simp [strcmpLt, hbc, Nat.lt_asymm hbc] at h2
        · subst hab
          rcases Nat.lt_trichotomy a c with hac | hac | hac
          · simp [strcmpLt, hac]
          · subst hac
            simp [strcmpLt] at h1 h2 ⊢
            exact ih bs cs h1 h2
          · simp [strcmpLt, hac, Nat.lt_asymm hac] at h2
        · simp [strcmpLt, hab, Nat.lt_asymm hab] at h1

theorem strcmp_trichotomy (as bs : List Nat) :
    (strcmpLt as bs = true ∧ strcmpLt bs as = false ∧ as ≠ bs) ∨
    (strcmpLt as bs = false ∧ strcmpLt bs as = true ∧ as ≠ bs) ∨
    (strcmpLt as bs = false ∧ strcmpLt bs as = false ∧ as = bs) := by
  induction as generalizing bs with
  | nil =>
    cases bs with
    | nil => exact Or.inr (Or.inr ⟨rfl, rfl, rfl⟩)
    | cons b bs => exact Or.inl ⟨rfl, rfl, by simp⟩
  | cons a as ih =>
    cases bs with
    | nil => exact Or.inr (Or.inl ⟨rfl, rfl, by simp⟩)
    | cons b bs =>
      rcases Nat.lt_trichotomy a b with hab | hab | hab
      · refine Or.inl ⟨?_, ?_, ?_⟩
        · simp [strcmpLt, hab]
        · simp [strcmpLt, hab, Nat.lt_asymm hab]
        · intro he
          obtain ⟨h1, -⟩ := List.cons.injEq .. ▸ he
          omega
      · subst hab
        rcases ih bs with ⟨s1, s2, s3⟩ | ⟨s1, s2, s3⟩ | ⟨s1, s2, s3⟩
        · exact Or.inl ⟨by simp [strcmpLt, s1], by simp [strcmpLt, s2], by simp [s3]⟩
        · exact Or.inr (Or.inl ⟨by simp [strcmpLt, s1], by simp [strcmpLt, s2],
            by simp [s3]⟩)
        · exact Or.inr (Or.inr ⟨by simp [strcmpLt, s1], by simp [strcmpLt, s2],
            by simp [s3]⟩)
      · refine Or.inr (Or.inl ⟨?_, ?_, ?_⟩)
        · simp [strcmpLt, hab, Nat.lt_asymm hab]
        · simp [strcmpLt, hab]
        · intro he
          obtain ⟨h1, -⟩ := List.cons.injEq .. ▸ he
          omega

/-- Unfolding of `OrtMemoryInfo::operator<` into the lexicographic order it
implements. -/
theorem ortMemoryInfo_lt_iff (a b : OrtMemoryInfo) :
    OrtMemoryInfo.lt a b = true ↔
      a.type < b.type ∨ (a.type = b.type ∧
        (a.mem_type < b.mem_type ∨ (a.mem_type = b.mem_type ∧
          (a.id < b.id ∨ (a.id = b.id ∧ strcmpLt a.name b.name = true))))) := by
  unfold OrtMemoryInfo.lt
  split_ifs with h1 h2 h3
  · rw [decide_eq_true_iff]
    constructor
    · exact Or.inl
    · rintro (h | ⟨he, -⟩)
      · exact h
      · exact absurd he h1
  · have e1 : a.type = b.type := not_not.mp h1
    rw [decide_eq_true_iff]
    constructor
    · intro h
      exact Or.inr ⟨e1, Or.inl h⟩
    · rintro (h | ⟨-, h | ⟨he, -⟩⟩)
      · omega
      · exact h
      · exact absurd he h2
  · have e1 : a.type = b.type := not_not.mp h1
    have e2 : a.mem_type = b.mem_type := not_not.mp h2
    rw [decide_eq_true_iff]
    constructor
    · intro h
      exact Or.inr ⟨e1, Or.inr ⟨e2, Or.inl h⟩⟩
    · rintro (h | ⟨-, h | ⟨-, h | ⟨he, -⟩⟩⟩)
      · omega
      · omega
      · exact h
      · exact absurd he h3
  · have e1 : a.type = b.type := not_not.mp h1
    have e2 : a.mem_type = b.mem_type := not_not.mp h2
    have e3 : a.id = b.id := not_not.mp h3
    constructor
    · intro h
      exact Or.inr ⟨e1, Or.inr ⟨e2, Or.inr ⟨e3, h⟩⟩⟩
    · rintro (h | ⟨-, h | ⟨-, h | ⟨-, h⟩⟩⟩)
      · omega
      · omega
      · omega
      · exact h

/-- Unfolding of `operator==` on `OrtMemoryInfo` into field equality. -/
theorem ortMemoryInfo_beq_iff (a b : OrtMemoryInfo) :
    OrtMemoryInfo.beq a b = true ↔
      a.mem_type = b.mem_type ∧ a.type = b.type ∧ a.id = b.id ∧ a.name = b.name := by
  unfold OrtMemoryInfo.beq
  simp [Bool.and_eq_true, strcmpEq_iff, and_assoc]

theorem ortMemoryInfo_beq_comm (a b : OrtMemoryInfo) :
    OrtMemoryInfo.beq a b = OrtMemoryInfo.beq b a := by
  rw [Bool.eq_iff_iff, ortMemoryInfo_beq_iff, ortMemoryInfo_beq_iff]
  constructor <;> rintro ⟨e1, e2, e3, e4⟩ <;> exact ⟨e1.symm, e2.symm, e3.symm, e4.symm⟩

theorem ortMemoryInfo_lt_asymm (a b : OrtMemoryInfo)
    (h : OrtMemoryInfo.lt a b = true) : OrtMemoryInfo.lt b a = false := by
  have g : ¬(OrtMemoryInfo.lt b a = true) := by
    rw [ortMemoryInfo_lt_iff] at h ⊢
    rcases h with h | ⟨e1, h | ⟨e2, h | ⟨e3, h⟩⟩⟩ <;>
      rintro (h2 | ⟨f1, h2 | ⟨f2, h2 | ⟨f3, h2⟩⟩⟩) <;> try omega
    have hs := strcmpLt_asymm _ _ h
    rw [h2] at hs
    simp at hs
  cases hlt : OrtMemoryInfo.lt b a
  · rfl
  · exact absurd hlt g

theorem ortMemoryInfo_lt_not_beq (a b : OrtMemoryInfo)
    (h : OrtMemoryInfo.lt a b = true) : OrtMemoryInfo.beq a b = false := by
  have g : ¬(OrtMemoryInfo.beq a b = true) := by
    rw [ortMemoryInfo_lt_iff] at h
    rw [ortMemoryInfo_beq_iff]
    rintro ⟨e1, e2, e3, e4⟩
    rcases h with h | ⟨-, h | ⟨-, h | ⟨-, h⟩⟩⟩
    · omega
    · omega
    · omega
    · rw [e4, strcmpLt_irrefl] at h
      simp at h
  cases hb : OrtMemoryInfo.beq a b
  · rfl
  · exact absurd hb g

theorem ortMemoryInfo_incomp_beq (a b : OrtMemoryInfo)
    (h1 : OrtMemoryInfo.lt a b = false) (h2 : OrtMemoryInfo.lt b a = false) :
    OrtMemoryInfo.beq a b = true := by
  have g1 : ¬(OrtMemoryInfo.lt a b = true) := by simp [h1]
  have g2 : ¬(OrtMemoryInfo.lt b a = true) := by simp [h2]
  rw [ortMemoryInfo_lt_iff] at g1 g2
  push_neg at g1 g2
  have t1 := g1.1
  have t2 := g2.1
  have e1 : a.type = b.type := by omega
  have m1 := g1.2 e1
  have m2 := g2.2 e1.symm
  have u1 := m1.1
  have u2 := m2.1
  have e2 : a.mem_type = b.mem_type := by omega
  have i1 := m1.2 e2
  have i2 := m2.2 e2.symm
  have v1 := i1.1
  have v2 := i2.1
  have e3 : a.id = b.id := by omega
  have n1 := i1.2 e3
  have n2 := i2.2 e3.symm
  have e4 : a.name = b.name := by
    rcases strcmp_trichotomy a.name b.name with ⟨s, -, -⟩ | ⟨-, s, -⟩ | ⟨-, -, s⟩
    · exact absurd s n1
    · exact absurd s n2
    · exact s
  rw [ortMemoryInfo_beq_iff]
  exact ⟨e2, e1, e3, e4⟩

theorem ortMemoryInfo_trichotomy (a b : OrtMemoryInfo) :
    (OrtMemoryInfo.lt a b = true ∧ OrtMemoryInfo.lt b a = false ∧
      OrtMemoryInfo.beq a b = false) ∨
    (OrtMemoryInfo.lt a b = false ∧ OrtMemoryInfo.lt b a = true ∧
      OrtMemoryInfo.beq a b = false) ∨
    (OrtMemoryInfo.lt a b = false ∧ OrtMemoryInfo.lt b a = false ∧
      OrtMemoryInfo.beq a b = true) := by
  cases hab : OrtMemoryInfo.lt a b
  · cases hba : OrtMemoryInfo.lt b a
    · exact Or.inr (Or.inr ⟨rfl, rfl, ortMemoryInfo_incomp_beq a b hab hba⟩)
    · refine Or.inr (Or.inl ⟨rfl, rfl, ?_⟩)
      rw [ortMemoryInfo_beq_comm]
      exact ortMemoryInfo_lt_not_beq b a hba
  · exact Or.inl ⟨rfl, ortMemoryInfo_lt_asymm a b hab, ortMemoryInfo_lt_not_beq a b hab⟩

theorem ortMemoryInfo_lt_trans_aux (a b c : OrtMemoryInfo)
    (hab : OrtMemoryInfo.lt a b = true) (hbc : OrtMemoryInfo.lt b c = true) :
    OrtMemoryInfo.lt a c = true := by
  rw [ortMemoryInfo_lt_iff] at hab hbc ⊢
  rcases hab with h1 | ⟨e1, hab⟩
  · rcases hbc with h2 | ⟨e2, -⟩
    · exact Or.inl (by omega)
    · exact Or.inl (by omega)
  · rcases hbc with h2 | ⟨e2, hbc⟩
    · exact Or.inl (by omega)
    · refine Or.inr ⟨by omega, ?_⟩
      rcases hab with h1 | ⟨f1, hab⟩
      · rcases hbc with h2 | ⟨f2, -⟩
        · exact Or.inl (by omega)
        · exact Or.inl (by omega)
      · rcases hbc with h2 | ⟨f2, hbc⟩
        · exact Or.inl (by omega)
        · refine Or.inr ⟨by omega, ?_⟩
          rcases hab with h1 | ⟨g1, hab⟩
          · rcases hbc with h2 | ⟨g2, -⟩
            · exact Or.inl (by omega)
            · exact Or.inl (by omega)
          · rcases hbc with h2 | ⟨g2, hbc⟩
            · exact Or.inl (by omega)
            · exact Or.inr ⟨by omega, strcmpLt_trans _ _ _ hab hbc⟩

/-- Claim C5: for any two `OrtMemoryInfo` values (names being valid non-null
NUL-terminated strings, which the model's byte-list names are by construction),
exactly one of `a < b`, `b < a`, `a == b` holds, `<` comparing strategy tag,
memory-class tag, numeric id and then name lexicographically, `==` comparing
memory-class, strategy tag, id and name bytewise; `<` is transitive and
irreflexive (a strict weak ordering whose incomparability is `==`), and the
embedded device participates in neither relation. -/
theorem ortMemoryInfo_strict_weak_order :
    (∀ a b : OrtMemoryInfo,
      (OrtMemoryInfo.lt a b = true ∧ OrtMemoryInfo.lt b a = false ∧
        OrtMemoryInfo.beq a b = false) ∨
      (OrtMemoryInfo.lt a b = false ∧ OrtMemoryInfo.lt b a = true ∧
        OrtMemoryInfo.beq a b = false) ∨
      (OrtMemoryInfo.lt a b = false ∧ OrtMemoryInfo.lt b a = false ∧
        OrtMemoryInfo.beq a b = true)) ∧
    (∀ a b c : OrtMemoryInfo, OrtMemoryInfo.lt a b = true →
      OrtMemoryInfo.lt b c = true → OrtMemoryInfo.lt a c = true) ∧
    (∀ a : OrtMemoryInfo, OrtMemoryInfo.lt a a = false) ∧
    (∀ (a : OrtMemoryInfo) (d : OrtDevice),
      OrtMemoryInfo.beq a { a with device := d } = true ∧
      OrtMemoryInfo.lt a { a with device := d } = false) := by
  refine ⟨ortMemoryInfo_trichotomy, ortMemoryInfo_lt_trans_aux, ?_, ?_⟩
  · intro a
    unfold OrtMemoryInfo.lt
    simp [strcmpLt_irrefl]
  · intro a d
    constructor
    · rw [ortMemoryInfo_beq_iff]
      exact ⟨rfl, rfl, rfl, rfl⟩
    · unfold OrtMemoryInfo.lt
      simp [strcmpLt_irrefl]

/-- Witness for C5: transitivity applied at three concrete descriptors ordered
by allocator-strategy tag. -/
theorem ortMemoryInfo_strict_weak_order_witness :
    OrtMemoryInfo.lt ⟨[67], 0, 0, 0, ⟨0, 0, 0⟩⟩ ⟨[67], 0, 0, 2, ⟨0, 0, 0⟩⟩ = true :=
  ortMemoryInfo_strict_weak_order.2.1 ⟨[67], 0, 0, 0, ⟨0, 0, 0⟩⟩
    ⟨[67], 0, 0, 1, ⟨0, 0, 0⟩⟩ ⟨[67], 0, 0, 2, ⟨0, 0, 0⟩⟩ (by decide) (by decide)

/-- Claim C6: equality on `OrtDevice` is reflexive, symmetric and transitive,
holds exactly when the kind, memory-class and index fields all agree, and
`operator!=` is its exact negation. -/
theorem ortDevice_eq_equivalence :
    (∀ a : OrtDevice, ortDeviceEq a a = true) ∧
    (∀ a b : OrtDevice, ortDeviceEq a b = true → ortDeviceEq b a = true) ∧
    (∀ a b c : OrtDevice, ortDeviceEq a b = true → ortDeviceEq b c = true →
      ortDeviceEq a c = true) ∧
    (∀ a b : OrtDevice, ortDeviceEq a b = true ↔
      a.device_type = b.device_type ∧ a.memory_type = b.memory_type ∧
        a.device_id = b.device_id) ∧
    (∀ a b : OrtDevice, ortDeviceNe a b = !ortDeviceEq a b) := by
  have hiff : ∀ a b : OrtDevice, ortDeviceEq a b = true ↔
      a.device_type = b.device_type ∧ a.memory_type = b.memory_type ∧
        a.device_id = b.device_id := by
    intro a b
    unfold ortDeviceEq
    simp [Bool.and_eq_true, and_assoc]
    tauto
  refine ⟨?_, ?_, ?_, hiff, fun a b => rfl⟩
  · intro a
    exact (hiff a a).mpr ⟨rfl, rfl, rfl⟩
  · intro a b h
    obtain ⟨e1, e2, e3⟩ := (hiff a b).mp h
    exact (hiff b a).mpr ⟨e1.symm, e2.symm, e3.symm⟩
  · intro a b c h1 h2
    obtain ⟨e1, e2, e3⟩ := (hiff a b).mp h1
    obtain ⟨f1, f2, f3⟩ := (hiff b c).mp h2
    exact (hiff a c).mpr ⟨e1.trans f1, e2.trans f2, e3.trans f3⟩

/-- Witness for C6: transitivity applied at a concrete device triple. -/
theorem ortDevice_eq_equivalence_witness :
    ortDeviceEq ⟨1, 0, 3⟩ ⟨1, 0, 3⟩ = true :=
  ortDevice_eq_equivalence.2.2.1 ⟨1, 0, 3⟩ ⟨1, 0, 3⟩ ⟨1, 0, 3⟩ (by decide) (by decide)

/-- Counterexample to C7 as stated: constructing with a null name completes
normally and produces a value whose stored name is the null pointer — no
process-fatal assertion runs in the constructor. -/
theorem construct_null_name_completes :
    (OrtMemoryInfo.construct none 0 ⟨0, 0, 0⟩ 0 0).name = none := rfl

/-- Claim C7 (amended): the constructor performs no runtime null check — the
`nonnull` attribute is a compile-time declaration to the compiler only — so
construction completes for every name argument, null included, storing all
five arguments unchanged (a null name is a contract violation left undetected
at runtime, not a fail-fast assertion). -/
theorem construct_stores_fields (name_ : Option (List Nat)) (type_ : Int)
    (device_ : OrtDevice) (id_ : Int) (mem_type_ : Int) :
    (OrtMemoryInfo.construct name_ type_ device_ id_ mem_type_).name = name_ ∧
    (OrtMemoryInfo.construct name_ type_ device_ id_ mem_type_).id = id_ ∧
    (OrtMemoryInfo.construct name_ type_ device_ id_ mem_type_).mem_type = mem_type_ ∧
    (OrtMemoryInfo.construct name_ type_ device_ id_ mem_type_).type = type_ ∧
    (OrtMemoryInfo.construct name_ type_ device_ id_ mem_type_).device = device_ :=
  ⟨rfl, rfl, rfl, rfl, rfl⟩

/-- Counterexample to C8 as stated: the source writes `"device_id:" << id <<
"]"` (and `"type:" << type << "]"`), so there is no space before the closing
bracket, while the claimed literal format ends in `<int> ]`. -/
theorem toString_missing_space_before_bracket :
    OrtDevice.ToString ⟨0, 0, 0⟩ = "Device: [ type:0 memory_type:0 device_id:0]" ∧
    OrtDevice.ToString ⟨0, 0, 0⟩ ≠ "Device: [ type:0 memory_type:0 device_id:0 ]" ∧
    OrtMemoryInfo.ToString ⟨[67, 112, 117], 0, 0, 0, ⟨0, 0, 0⟩⟩ =
      "OrtMemoryInfo: [ name:Cpu id:0 mem_type:0 type:0]" ∧
    OrtMemoryInfo.ToString ⟨[67, 112, 117], 0, 0, 0, ⟨0, 0, 0⟩⟩ ≠
      "OrtMemoryInfo: [ name:Cpu id:0 mem_type:0 type:0 ]" :=
  ⟨by decide, by decide, by decide, by decide⟩

/-- Claim C8 (amended): for every `OrtDevice` and every `OrtMemoryInfo`, the
renderings are exactly `Device: [ type:<int> memory_type:<int> device_id:<int>]`
and `OrtMemoryInfo: [ name:<string> id:<int> mem_type:<int> type:<int>]`, with
the shown field order and spacing — one space after the opening bracket, none
before the closing one. -/
theorem toString_renderings :
    (∀ d : OrtDevice, OrtDevice.ToString d = specDeviceRendering d) ∧
    (∀ info : OrtMemoryInfo, OrtMemoryInfo.ToString info = specMemoryInfoRendering info) := by
  constructor
  · intro d
    unfold OrtDevice.ToString specDeviceRendering
    rw [show "Device: [" ++ " type:" = "Device: [ type:" from rfl]
  · intro info
    unfold OrtMemoryInfo.ToString specMemoryInfoRendering
    rw [show "OrtMemoryInfo: [" ++ " name:" = "OrtMemoryInfo: [ name:" from rfl]

theorem dropRefs_keeps_alive (n : Nat) (log : List Nat) :
    dropRefs n ⟨n + 1, true, log⟩ = ⟨1, true, log⟩ := by
  induction n with
  | zero => rfl
  | succ m ih =>
    rw [dropRefs]
    have hd : dropRef ⟨m + 1 + 1, true, log⟩ = ⟨m + 1, true, log⟩ := by
      simp [dropRef]
    rw [hd, ih]

/-- Claim C9: the deleter of a `MakeUniquePtr` handle holds a shared
(reference-counted) reference to the allocator, so after the `n` other
references are all dropped the allocator is still alive, and destroying the
one outstanding handle invokes `Free` on the live allocator exactly once (one
new entry in the `Free` log, no use-after-free) — and only if the wrapped
pointer is non-null. -/
theorem makeUniquePtr_deleter_keeps_allocator_alive (n ptr : Nat) (log : List Nat) :
    (dropRefs n ⟨n + 1, true, log⟩).alive = true ∧
    (ptr ≠ 0 → handleRelease (dropRefs n ⟨n + 1, true, log⟩) ptr =
      some ⟨0, false, log ++ [ptr]⟩) ∧
    (ptr = 0 → handleRelease (dropRefs n ⟨n + 1, true, log⟩) ptr =
      some ⟨1, true, log⟩) := by
  rw [dropRefs_keeps_alive]
  refine ⟨rfl, fun hp => ?_, fun hp => ?_⟩
  · simp [handleRelease, hp, deleterRun, invokeFree, dropRef]
  · subst hp
    simp [handleRelease]

/-- Witness for C9: two external references dropped, then the handle holding
pointer 5 released — `Free(5)` fires once and the allocator is torn down. -/
theorem makeUniquePtr_deleter_keeps_allocator_alive_witness :
    handleRelease (dropRefs 2 ⟨3, true, []⟩) 5 = some ⟨0, false, [5]⟩ :=
  (makeUniquePtr_deleter_keeps_allocator_alive 2 5 []).2.1 (by decide)

end OnnxAlloc
